import Mathlib

/-!
Verification of the `tvx extract` pipeline (cmd/tvx/extract.go): a shallow
embedding of the extraction and state-retention pipeline, together with
theorems about the precursor selector, the chain resolver, the replay loop,
the verification gate, the output discipline and determinism.

External collaborators (the chain API, the execution engine, the
content-addressed store, the CAR writers, gzip, JSON marshalling and the
filesystem) are modelled as explicit fields of an `Env` record: every theorem
quantifies over an arbitrary environment, so nothing is assumed about their
behaviour beyond their type.  CIDs, addresses and tipset keys are modelled as
`Nat`; byte strings as `List Nat`; fallible Go calls as `Except String`.
-/

set_option maxHeartbeats 1000000

/-- Models `types.Message` (sender, receiver, nonce, method, params, value).
The `Cid` field models the content identifier returned by `msg.Cid()`:
a message is immutable once fetched, so its CID is carried as plain data. -/
structure Message where
  From : Nat
  To : Nat
  Nonce : Nat
  Method : Nat
  Params : List Nat
  Value : Nat
  Cid : Nat
deriving DecidableEq, Repr, Inhabited

/-- Models `api.Message`: a canonical-list entry pairing the CID under which
the message was included with the (unsigned) message itself. -/
structure ApiMessage where
  Cid : Nat
  Message : Message
deriving DecidableEq, Repr

/-- Models `types.BlockHeader` restricted to the fields the pipeline reads:
`Cid()`, `Height`, `ParentBaseFee`. -/
structure BlockHeader where
  Cid : Nat
  height : Nat
  parentBaseFee : Nat
deriving DecidableEq, Repr

/-- Models `types.TipSet` restricted to the fields the pipeline reads:
`Key()`, `Height()`, `Parents()`, `ParentState()` and `Blocks()[0]`
(a real tipset always has at least one block; `blocks0` models that
first block). -/
structure TipSet where
  key : Nat
  height : Nat
  parents : Nat
  parentState : Nat
  blocks0 : BlockHeader
deriving DecidableEq, Repr

/-- Models `types.MessageReceipt`: exit code, return value, gas used. -/
structure MessageReceipt where
  exitCode : Int
  ret : List Nat
  gasUsed : Int
deriving DecidableEq, Repr

/-- Models `api.MsgLookup` as returned by `StateSearchMsg`. -/
structure MsgLookup where
  tipSet : Nat
  height : Nat
  receipt : MessageReceipt
deriving DecidableEq, Repr

/-- Models `vm.ApplyRet` restricted to the fields the pipeline reads. -/
structure ApplyRet where
  exitCode : Int
  ret : List Nat
  gasUsed : Int
deriving DecidableEq, Repr

/-- Models `conformance.ExecuteMessageParams`. -/
structure ExecParams where
  preroot : Nat
  epoch : Nat
  message : Message
  circSupply : Nat
  baseFee : Nat
deriving DecidableEq, Repr

/-- Models `schema.Receipt`. -/
structure SchemaReceipt where
  exitCode : Int
  returnValue : List Nat
  gasUsed : Int
deriving DecidableEq, Repr

/-- Models `schema.GenerationData`. -/
structure GenerationData where
  source : String
  version : String
deriving DecidableEq, Repr

/-- Models `schema.Metadata`. -/
structure Metadata where
  id : String
  gen : List GenerationData
deriving DecidableEq, Repr

/-- Models `schema.Preconditions`. -/
structure Preconditions where
  epoch : Nat
  circSupply : Nat
  baseFee : Nat
  stateTreeRoot : Nat
deriving DecidableEq, Repr

/-- Models `schema.Postconditions`. -/
structure Postconditions where
  stateTreeRoot : Nat
  receipts : List SchemaReceipt
deriving DecidableEq, Repr

/-- Models `schema.TestVector`. -/
structure TestVector where
  Class : String
  meta : Metadata
  car : List Nat
  pre : Preconditions
  applyMessages : List (List Nat)
  post : Postconditions
deriving DecidableEq, Repr

/-- `PrecursorSelectAll` mode constant (`"all"`). -/
def PrecursorSelectAll : String := "all"

/-- `PrecursorSelectSender` mode constant (`"sender"`). -/
def PrecursorSelectSender : String := "sender"

/-- Models `reward.Address` (the f02 reward actor). -/
def rewardAddress : Nat := 2

/-- Models `builtin.BurntFundsActorAddr` (the f099 burnt-funds actor). -/
def burntFundsActorAddr : Nat := 99

/-- Models `init_.Address` (the f01 init actor). -/
def initAddress : Nat := 1

/-- Models `types.EmptyTSK`, the tipset-key value that hints the chain API to
walk from the current HEAD. -/
def EmptyTSK : Nat := 0

/-- The loop body of `findMsgAndPrecursors`: Go's `switch` with `fallthrough`
appends `other.Message` to the accumulator when the selection mode is
`all`, or when it is `sender` and the sender matches the target's. -/
def selectAppend (mode : String) (target : Message) (other : ApiMessage)
    (related : List Message) : List Message :=
  if mode = PrecursorSelectAll ∨ (mode = PrecursorSelectSender ∧ other.Message.From = target.From)
  then related ++ [other.Message] else related

/-- The `for` loop of `findMsgAndPrecursors`: scan the canonical list,
append per `selectAppend`, and stop with `found = true` as soon as the
entry's CID equals the target's CID. -/
def findLoop (mode : String) (target : Message) :
    List ApiMessage → List Message → List Message × Bool × Option String
  | [], related => (related, false, none)
  | other :: rest, related =>
    let related' := selectAppend mode target other related
    if other.Cid = target.Cid then (related', true, none)
    else findLoop mode target rest related'

/-- Models `findMsgAndPrecursors` (extract.go): ranges through the canonical
messages slice, locating the target message and returning precursors in
accordance with the supplied mode, plus a `found` flag and an error value
(which the Go function never sets). -/
def findMsgAndPrecursors (mode : String) (target : Message) (msgs : List ApiMessage) :
    List Message × Bool × Option String :=
  findLoop mode target msgs []

theorem findLoop_sender_spec (target : Message) :
    ∀ (msgs : List ApiMessage) (k : Nat) (acc : List Message),
      msgs[k]? = some ⟨target.Cid, target⟩ →
      (∀ a ∈ msgs.take k, a.Cid ≠ target.Cid) →
      findLoop PrecursorSelectSender target msgs acc =
        (acc ++ ((msgs.take k).filter (fun a => a.Message.From == target.From)).map
            (fun a => a.Message) ++ [target], true, none)
  | [], k, acc, hTgt, _ => by simp at hTgt
  | m :: rest, 0, acc, hTgt, _ => by
    simp only [List.getElem?_cons_zero, Option.some.injEq] at hTgt
    subst hTgt
    simp [findLoop, selectAppend, PrecursorSelectAll, PrecursorSelectSender]
  | m :: rest, k + 1, acc, hTgt, hBefore => by
    simp only [List.getElem?_cons_succ] at hTgt
    have hm : m.Cid ≠ target.Cid := hBefore m (by simp)
    have hrest : ∀ a ∈ rest.take k, a.Cid ≠ target.Cid := by
      intro a ha
      exact hBefore a (by simp [List.take_succ_cons]; right; exact ha)
    have ih := findLoop_sender_spec target rest k (selectAppend PrecursorSelectSender target m acc)
      hTgt hrest
    simp only [findLoop, if_neg hm, ih]
    by_cases hf : m.Message.From = target.From
    · simp [selectAppend, PrecursorSelectAll, PrecursorSelectSender, hf, List.take_succ_cons]
    · simp [selectAppend, PrecursorSelectAll, PrecursorSelectSender, hf, List.take_succ_cons]

theorem findLoop_all_spec (target : Message) :
    ∀ (msgs : List ApiMessage) (k : Nat) (acc : List Message),
      msgs[k]? = some ⟨target.Cid, target⟩ →
      (∀ a ∈ msgs.take k, a.Cid ≠ target.Cid) →
      findLoop PrecursorSelectAll target msgs acc =
        (acc ++ (msgs.take (k + 1)).map (fun a => a.Message), true, none)
  | [], k, acc, hTgt, _ => by simp at hTgt
  | m :: rest, 0, acc, hTgt, _ => by
    simp only [List.getElem?_cons_zero, Option.some.injEq] at hTgt
    subst hTgt
    simp [findLoop, selectAppend, PrecursorSelectAll]
  | m :: rest, k + 1, acc, hTgt, hBefore => by
    simp only [List.getElem?_cons_succ] at hTgt
    have hm : m.Cid ≠ target.Cid := hBefore m (by simp)
    have hrest : ∀ a ∈ rest.take k, a.Cid ≠ target.Cid := by
      intro a ha
      exact hBefore a (by simp [List.take_succ_cons]; right; exact ha)
    have ih := findLoop_all_spec target rest k (selectAppend PrecursorSelectAll target m acc)
      hTgt hrest
    simp only [findLoop, if_neg hm, ih]
    simp [selectAppend, PrecursorSelectAll, List.take_succ_cons]

/-- C1: for every canonical message list in which the target appears at
position `k` (and its CID appears nowhere earlier), `sender` mode returns
exactly the ordered subsequence of earlier messages sharing the target's
sender followed by the target, with `found = true`; `all` mode returns every
message at positions `≤ k` in order, with `found = true`. -/
theorem findMsgAndPrecursors_selector_correct (target : Message) (msgs : List ApiMessage)
    (k : Nat) (hTgt : msgs[k]? = some ⟨target.Cid, target⟩)
    (hBefore : ∀ a ∈ msgs.take k, a.Cid ≠ target.Cid) :
    findMsgAndPrecursors PrecursorSelectSender target msgs =
      (((msgs.take k).filter (fun a => a.Message.From == target.From)).map
          (fun a => a.Message) ++ [target], true, none)
    ∧ findMsgAndPrecursors PrecursorSelectAll target msgs =
      ((msgs.take (k + 1)).map (fun a => a.Message), true, none) := by
  constructor
  · have h := findLoop_sender_spec target msgs k [] hTgt hBefore
    simpa [findMsgAndPrecursors] using h
  · have h := findLoop_all_spec target msgs k [] hTgt hBefore
    simpa [findMsgAndPrecursors] using h

/-- Example data: target with sender 10 at position 3 of a 5-message
canonical list; positions 0 and 1 share the sender, position 2 does not. -/
def exTarget : Message := { From := 10, To := 20, Nonce := 3, Method := 0, Params := [1, 2], Value := 5, Cid := 100 }

def exM0 : Message := { From := 10, To := 21, Nonce := 1, Method := 0, Params := [], Value := 1, Cid := 101 }

def exM1 : Message := { From := 10, To := 22, Nonce := 2, Method := 0, Params := [], Value := 1, Cid := 102 }

def exM2 : Message := { From := 77, To := 23, Nonce := 9, Method := 0, Params := [], Value := 1, Cid := 103 }

def exM4 : Message := { From := 10, To := 24, Nonce := 4, Method := 0, Params := [], Value := 1, Cid := 104 }

def exMsgs : List ApiMessage :=
  [⟨101, exM0⟩, ⟨102, exM1⟩, ⟨103, exM2⟩, ⟨100, exTarget⟩, ⟨104, exM4⟩]

/-- C1 witness: the spec's example scenario, at position 3 of a 5-message
list: `sender` yields [msg0, msg1, msg3] and `all` yields
[msg0, msg1, msg2, msg3]. -/
theorem findMsgAndPrecursors_selector_correct_witness :
    findMsgAndPrecursors PrecursorSelectSender exTarget exMsgs =
      ([exM0, exM1, exTarget], true, none)
    ∧ findMsgAndPrecursors PrecursorSelectAll exTarget exMsgs =
      ([exM0, exM1, exM2, exTarget], true, none) := by
  have h := findMsgAndPrecursors_selector_correct exTarget exMsgs 3 (by decide) (by decide)
  exact ⟨by rw [h.1]; decide, by rw [h.2]; decide⟩

theorem findLoop_not_found (mode : String) (target : Message) :
    ∀ (msgs : List ApiMessage) (acc : List Message),
      (∀ a ∈ msgs, a.Cid ≠ target.Cid) →
      ∃ rel, findLoop mode target msgs acc = (rel, false, none) ∧
        rel.length ≤ acc.length + msgs.length
  | [], acc, _ => ⟨acc, rfl, by simp⟩
  | m :: rest, acc, habs => by
    have hm : m.Cid ≠ target.Cid := habs m (by simp)
    have hlen : (selectAppend mode target m acc).length ≤ acc.length + 1 := by
      unfold selectAppend
      split <;> simp
    obtain ⟨rel, hrel, hrellen⟩ :=
      findLoop_not_found mode target rest (selectAppend mode target m acc)
        (fun a ha => habs a (by simp [ha]))
    exact ⟨rel, by simp only [findLoop, if_neg hm]; exact hrel, by simp; omega⟩

theorem findLoop_err_none (mode : String) (target : Message) :
    ∀ (msgs : List ApiMessage) (acc : List Message),
      (findLoop mode target msgs acc).2.2 = none
  | [], _ => rfl
  | m :: rest, acc => by
    simp only [findLoop]
    split
    · rfl
    · exact findLoop_err_none mode target rest _

theorem findLoop_unknown_mode (mode : String) (target : Message)
    (h1 : mode ≠ PrecursorSelectAll) (h2 : mode ≠ PrecursorSelectSender) :
    ∀ (msgs : List ApiMessage) (acc : List Message),
      (findLoop mode target msgs acc).1 = acc
  | [], _ => rfl
  | m :: rest, acc => by
    have hsel : selectAppend mode target m acc = acc := by
      unfold selectAppend
      rw [if_neg]
      rintro (h | ⟨h, _⟩)
      · exact h1 h
      · exact h2 h
    simp only [findLoop, hsel]
    split
    · rfl
    · exact findLoop_unknown_mode mode target h1 h2 rest acc

/-- C10: the selector's error return value is always `nil`, for every mode
string, target and list; an unrecognized mode is not reported as an error and
simply causes the inclusion predicate to accept no messages (the accumulated
list is empty). -/
theorem selector_err_none_spec (mode : String) (target : Message) (msgs : List ApiMessage) :
    (findMsgAndPrecursors mode target msgs).2.2 = none
    ∧ (mode ≠ PrecursorSelectAll → mode ≠ PrecursorSelectSender →
        (findMsgAndPrecursors mode target msgs).1 = []) := by
  constructor
  · exact findLoop_err_none mode target msgs []
  · intro h1 h2
    exact findLoop_unknown_mode mode target h1 h2 msgs []

/-- C10 witness: an unrecognized mode `"bogus"` on the example list yields no
error and an empty accumulated list, even though the target is found. -/
theorem selector_err_none_spec_witness :
    (findMsgAndPrecursors "bogus" exTarget exMsgs).2.2 = none
    ∧ (findMsgAndPrecursors "bogus" exTarget exMsgs).1 = [] := by
  have h := selector_err_none_spec "bogus" exTarget exMsgs
  exact ⟨h.1, h.2 (by decide) (by decide)⟩

theorem findLoop_found_last (mode : String) (target : Message)
    (hmode : mode = PrecursorSelectAll ∨ mode = PrecursorSelectSender) :
    ∀ (msgs : List ApiMessage) (acc : List Message),
      (∀ a ∈ msgs, a.Cid = target.Cid → a.Message = target) →
      (findLoop mode target msgs acc).2.1 = true →
      ∃ pre, (findLoop mode target msgs acc).1 = pre ++ [target]
  | [], acc, _, hfound => by simp [findLoop] at hfound
  | m :: rest, acc, hcanon, hfound => by
    by_cases hm : m.Cid = target.Cid
    · have hmsg : m.Message = target := hcanon m (by simp) hm
      have hsel : selectAppend mode target m acc = acc ++ [target] := by
        unfold selectAppend
        rw [if_pos, hmsg]
        rcases hmode with h | h
        · exact Or.inl h
        · exact Or.inr ⟨h, by rw [hmsg]⟩
      refine ⟨acc, ?_⟩
      simp only [findLoop, if_pos hm, hsel]
    · simp only [findLoop, if_neg hm] at hfound ⊢
      exact findLoop_found_last mode target hmode rest (selectAppend mode target m acc)
        (fun a ha h => hcanon a (by simp [ha]) h) hfound

/-- C9: in modes `all` and `sender`, whenever the selector reports
`found = true` on a canonical list (one in which any entry carrying the
target's CID is the target itself, as content addressing guarantees), the
result list is non-empty and its last element is the target, so the caller's
split `related[:len(related)-1]` never indexes out of range and drops exactly
the target. -/
theorem selector_found_last_target_spec (mode : String) (target : Message)
    (msgs : List ApiMessage)
    (hmode : mode = PrecursorSelectAll ∨ mode = PrecursorSelectSender)
    (hcanon : ∀ a ∈ msgs, a.Cid = target.Cid → a.Message = target)
    (hfound : (findMsgAndPrecursors mode target msgs).2.1 = true) :
    (findMsgAndPrecursors mode target msgs).1 ≠ []
    ∧ (findMsgAndPrecursors mode target msgs).1 =
      ((findMsgAndPrecursors mode target msgs).1).dropLast ++ [target] := by
  obtain ⟨pre, hpre⟩ := findLoop_found_last mode target hmode msgs [] hcanon hfound
  simp only [findMsgAndPrecursors] at hpre ⊢
  rw [hpre]
  exact ⟨by simp, by rw [List.dropLast_concat]⟩

/-- C9 witness: both modes on the example list, where `found = true`. -/
theorem selector_found_last_target_spec_witness :
    ((findMsgAndPrecursors PrecursorSelectSender exTarget exMsgs).1 ≠ []
      ∧ (findMsgAndPrecursors PrecursorSelectSender exTarget exMsgs).1 =
        ((findMsgAndPrecursors PrecursorSelectSender exTarget exMsgs).1).dropLast ++ [exTarget])
    ∧ ((findMsgAndPrecursors PrecursorSelectAll exTarget exMsgs).1 ≠ []
      ∧ (findMsgAndPrecursors PrecursorSelectAll exTarget exMsgs).1 =
        ((findMsgAndPrecursors PrecursorSelectAll exTarget exMsgs).1).dropLast ++ [exTarget]) :=
  ⟨selector_found_last_target_spec PrecursorSelectSender exTarget exMsgs (Or.inr rfl)
      (by decide) (by decide),
    selector_found_last_target_spec PrecursorSelectAll exTarget exMsgs (Or.inl rfl)
      (by decide) (by decide)⟩

/-- Models `extractOpts`: the extraction options (CLI flags). -/
structure extractOpts where
  id : String
  block : String
  cid : String
  file : String
  retain : String
  precursor : String
deriving DecidableEq, Repr

/-- The environment: every external collaborator the pipeline drives, made
explicit.  Chain-API lookups, the execution engine (`driver.ExecuteMessage`),
the surgeon/store capabilities (tracing, masking, CAR writing), library
functions (`cid.Decode`, `msg.Serialize`, gzip, JSON marshalling,
`filepath.Dir`) and filesystem operations are fields, so each theorem holds
for an arbitrary environment and identical environments model identical chain
state and store contents. -/
structure Env where
  decodeCid : String → Except String Nat
  ChainGetMessage : Nat → Except String Message
  StateSearchMsg : Nat → Except String MsgLookup
  ChainGetTipSet : Nat → Except String TipSet
  ChainGetTipSetByHeight : Nat → Nat → Except String TipSet
  ChainGetBlock : Nat → Except String BlockHeader
  StateCirculatingSupply : Nat → Except String Nat
  ChainGetParentMessages : Nat → Except String (List ApiMessage)
  StateGetReceipt : Nat → Nat → Except String (Option MessageReceipt)
  Version : Except String String
  StateNetworkName : Except String String
  ExecuteMessage : ExecParams → Except String (ApplyRet × Nat)
  tracingAvailable : Bool
  tracedAccess : List Nat
  GetAccessedActors : Nat → Except String (List Nat)
  GetMaskedStateTree : Nat → List Nat → Except String Nat
  WriteCAR : Nat → Nat → Except String (List Nat)
  WriteCARIncluding : List Nat → Nat → Nat → Except String (List Nat)
  gzipCompress : List Nat → List Nat
  serializeMsg : Message → Except String (List Nat)
  marshalJSON : TestVector → Except String (List Nat)
  filepathDir : String → String
  mkdirAll : String → Except String Unit
  createFile : String → Except String Unit
  writeDest : Except String Unit

/-- Models `fetchThisAndPrevTipset`: returns the tipset identified by the
key (where the message was executed) and its parent tipset (where it was
included). -/
def fetchThisAndPrevTipset (env : Env) (target : Nat) : Except String (TipSet × TipSet) :=
  match env.ChainGetTipSet target with
  | .error e => .error e
  | .ok targetTs =>
    match env.ChainGetTipSet targetTs.parents with
    | .error e => .error e
    | .ok prevTs => .ok (targetTs, prevTs)

/-- Models `resolveFromChain`: fetch the message; without a block hint locate
it via `StateSearchMsg` and fetch that tipset and its parent; with a hint
fetch the hinted block, resolve the execution tipset at height `h+1` from
HEAD (`EmptyTSK`) and the inclusion tipset at height `h` walking back from
the execution tipset. -/
def resolveFromChain (env : Env) (mcid : Nat) (block : String) :
    Except String (Message × TipSet × TipSet) :=
  match env.ChainGetMessage mcid with
  | .error e => .error e
  | .ok msg =>
    if block = "" then
      match env.StateSearchMsg mcid with
      | .error e => .error ("failed to locate message: " ++ e)
      | .ok msgInfo =>
        match fetchThisAndPrevTipset env msgInfo.tipSet with
        | .error e => .error e
        | .ok (execTs, incTs) => .ok (msg, execTs, incTs)
    else
      match env.decodeCid block with
      | .error e => .error e
      | .ok bcid =>
        match env.ChainGetBlock bcid with
        | .error e => .error ("failed to get block: " ++ e)
        | .ok blk =>
          match env.ChainGetTipSetByHeight (blk.height + 1) EmptyTSK with
          | .error e => .error ("failed to get message execution tipset: " ++ e)
          | .ok execTs =>
            match env.ChainGetTipSetByHeight blk.height execTs.key with
            | .error e => .error ("failed to get message inclusion tipset: " ++ e)
            | .ok incTs => .ok (msg, execTs, incTs)

/-- The precursor loop of `doExtract`: sequentially execute each precursor
against the running root, threading the resulting root forward; any
execution error aborts with a wrapped error. -/
def replayPrecursors (env : Env) (epoch circSupply basefee : Nat) :
    List Message → Nat → Except String Nat
  | [], root => .ok root
  | m :: rest, root =>
    match env.ExecuteMessage ⟨root, epoch, m, circSupply, basefee⟩ with
    | .error e => .error ("failed to execute precursor message: " ++ e)
    | .ok (_, root') => replayPrecursors env epoch circSupply basefee rest root'

/-- The `switch retention` of `doExtract`: executes the target message under
the chosen state retention strategy, producing the preroot, the postroot, the
apply result, and the pending CAR write (Go builds `carWriter` here but only
runs it after the receipt check, so the CAR result is returned unevaluated as
an `Except` value bound later). -/
def executeTarget (env : Env) (retention : String) (mcid : Nat) (msg : Message)
    (epoch circSupply basefee root : Nat) :
    Except String (Nat × Nat × ApplyRet × Except String (List Nat)) :=
  if retention = "accessed-cids" then
    if env.tracingAvailable then
      let preroot := root
      match env.ExecuteMessage ⟨preroot, epoch, msg, circSupply, basefee⟩ with
      | .error e => .error ("failed to execute message: " ++ e)
      | .ok (applyret, postroot) =>
        let accessed := env.tracedAccess
        .ok (preroot, postroot, applyret, env.WriteCARIncluding accessed preroot postroot)
    else .error "requested 'accessed-cids' state retention, but no tracing blockstore was present"
  else if retention = "accessed-actors" then
    match env.GetAccessedActors mcid with
    | .error e => .error ("failed to calculate accessed actors: " ++ e)
    | .ok retain =>
      let retain' := retain ++ [rewardAddress, burntFundsActorAddr, initAddress]
      match env.GetMaskedStateTree root retain' with
      | .error e => .error e
      | .ok preroot =>
        match env.ExecuteMessage ⟨preroot, epoch, msg, circSupply, basefee⟩ with
        | .error e => .error ("failed to execute message: " ++ e)
        | .ok (applyret, postroot) =>
          .ok (preroot, postroot, applyret, env.WriteCAR preroot postroot)
  else .error ("unknown state retention option: " ++ retention)

/-- Modelled from the spec: `conformance.AssertMsgResult` together with
`LogReporter.Failed` (repository code outside the extracted source) compare
the locally computed result against the authoritative receipt on exit code,
return value and gas used; any field mismatch fails the check. -/
def AssertMsgResult (expected : SchemaReceipt) (actual : ApplyRet) : Bool :=
  expected.exitCode == actual.exitCode && expected.returnValue == actual.ret
    && expected.gasUsed == actual.gasUsed

/-- The tail of `doExtract` after the receipt check: serialize the message,
run the pending CAR write through gzip, fetch node version and network name,
and assemble the final `TestVector` document.  `t` is
`(preroot, postroot, applyret, carW)`. -/
def assembleVector (env : Env) (opts : extractOpts) (msg : Message)
    (execTs incTs : TipSet) (circSupply basefee : Nat)
    (t : Nat × Nat × ApplyRet × Except String (List Nat)) : Except String TestVector :=
  match t with
  | (preroot, postroot, applyret, carW) =>
    match env.serializeMsg msg with
    | .error e => .error e
    | .ok msgBytes =>
      match carW with
      | .error e => .error e
      | .ok carBytes =>
        match env.Version with
        | .error e => .error e
        | .ok version =>
          match env.StateNetworkName with
          | .error e => .error e
          | .ok ntwkName =>
            .ok
              { Class := "message"
                meta :=
                  { id := opts.id
                    gen :=
                      [⟨"network:" ++ ntwkName, ""⟩,
                        ⟨"message:" ++ toString msg.Cid, ""⟩,
                        ⟨"inclusion_tipset:" ++ toString incTs.key, ""⟩,
                        ⟨"execution_tipset:" ++ toString execTs.key, ""⟩,
                        ⟨"github.com/filecoin-project/lotus", version⟩] }
                car := env.gzipCompress carBytes
                pre :=
                  { epoch := execTs.height
                    circSupply := circSupply
                    baseFee := basefee
                    stateTreeRoot := preroot }
                applyMessages := [msgBytes]
                post :=
                  { stateTreeRoot := postroot
                    receipts := [⟨applyret.exitCode, applyret.ret, applyret.gasUsed⟩] } }

/-- The receipt sanity check of `doExtract` (the `VerifyReceipt` stage):
fetch the authoritative receipt; a lookup error is fatal; a present receipt
is compared via `AssertMsgResult` and a mismatch aborts; a nil receipt skips
the comparison (recording a warning on stderr) and proceeds to assembly. -/
def afterTarget (env : Env) (opts : extractOpts) (mcid : Nat) (msg : Message)
    (execTs incTs : TipSet) (circSupply basefee : Nat)
    (t : Nat × Nat × ApplyRet × Except String (List Nat)) : Except String TestVector :=
  match env.StateGetReceipt mcid execTs.key with
  | .error e => .error ("failed to find receipt on chain: " ++ e)
  | .ok (some rec) =>
    if AssertMsgResult ⟨rec.exitCode, rec.ret, rec.gasUsed⟩ t.2.2.1 then
      assembleVector env opts msg execTs incTs circSupply basefee t
    else .error "vector generation aborted"
  | .ok none => assembleVector env opts msg execTs incTs circSupply basefee t

/-- Models `doExtract` up to (and including) vector assembly: decode the
message CID, resolve message and tipsets, fetch the circulating supply, fetch
the canonical message list, select precursors (aborting if the target is not
found), replay the precursors from the inclusion tipset's parent state root,
execute the target under the retention strategy, verify the receipt and
assemble the vector. -/
def doExtractCore (env : Env) (opts : extractOpts) : Except String TestVector :=
  match env.decodeCid opts.cid with
  | .error e => .error e
  | .ok mcid =>
    match resolveFromChain env mcid opts.block with
    | .error e => .error ("failed to resolve message and tipsets from chain: " ++ e)
    | .ok (msg, execTs, incTs) =>
      match env.StateCirculatingSupply incTs.key with
      | .error e => .error ("failed while fetching circulating supply: " ++ e)
      | .ok circSupply =>
        match env.ChainGetParentMessages execTs.blocks0.Cid with
        | .error e => .error ("failed to fetch messages in canonical order from inclusion tipset: " ++ e)
        | .ok msgs =>
          match findMsgAndPrecursors opts.precursor msg msgs with
          | (related, found, ferr) =>
            match ferr with
            | some e => .error ("failed while finding message and precursors: " ++ e)
            | none =>
              if found then
                let precursors := related.dropLast
                let root := incTs.parentState
                let basefee := incTs.blocks0.parentBaseFee
                match replayPrecursors env execTs.height circSupply basefee precursors root with
                | .error e => .error e
                | .ok root' =>
                  match executeTarget env opts.retain mcid msg execTs.height circSupply basefee root' with
                  | .error e => .error e
                  | .ok t => afterTarget env opts mcid msg execTs incTs circSupply basefee t
              else .error ("message not found; precursors found: " ++ toString related.length)

/-- An observable effect on the configured destination: creation (or
truncation) of the output file, or a write of a complete byte string. -/
inductive DestEvent where
  | create (path : String)
  | write (bytes : List Nat)
deriving DecidableEq, Repr

/-- The output stage of `doExtract`: standard output when no file is
configured, otherwise create parent directories and the file; then JSON-
marshal the vector and write it.  The returned list records every event the
destination observed (Go's `json.Encoder.Encode` marshals fully before
writing, so a marshalling failure writes nothing). -/
def writeOutput (env : Env) (opts : extractOpts) (vector : TestVector) :
    Except String Unit × List DestEvent :=
  if opts.file = "" then
    match env.marshalJSON vector with
    | .error e => (.error e, [])
    | .ok bs =>
      match env.writeDest with
      | .error e => (.error e, [DestEvent.write bs])
      | .ok _ => (.ok (), [DestEvent.write bs])
  else
    match env.mkdirAll (env.filepathDir opts.file) with
    | .error e => (.error ("unable to create directory " ++ env.filepathDir opts.file ++ ": " ++ e), [])
    | .ok _ =>
      match env.createFile opts.file with
      | .error e => (.error e, [])
      | .ok _ =>
        match env.marshalJSON vector with
        | .error e => (.error e, [DestEvent.create opts.file])
        | .ok bs =>
          match env.writeDest with
          | .error e => (.error e, [DestEvent.create opts.file, DestEvent.write bs])
          | .ok _ => (.ok (), [DestEvent.create opts.file, DestEvent.write bs])

/-- Models the whole of `doExtract`: the core pipeline followed by the output
stage; an error anywhere in the core reaches the destination with no events
at all. -/
def doExtract (env : Env) (opts : extractOpts) : Except String Unit × List DestEvent :=
  match doExtractCore env opts with
  | .error e => (.error e, [])
  | .ok v => writeOutput env opts v

/-- Example chain data for concrete runs. -/
def exBlockExec : BlockHeader := { Cid := 600, height := 41, parentBaseFee := 3 }

def exBlockInc : BlockHeader := { Cid := 601, height := 40, parentBaseFee := 3 }

def exExecTs : TipSet :=
  { key := 500, height := 41, parents := 499, parentState := 7777, blocks0 := exBlockExec }

def exIncTs : TipSet :=
  { key := 499, height := 40, parents := 498, parentState := 7000, blocks0 := exBlockInc }

/-- A concrete happy-path environment: the target message of `exMsgs` is
located at tipset 500, precursors replay by incrementing the root, tracing is
available, and the authoritative receipt agrees with local execution. -/
def env0 : Env :=
  { decodeCid := fun _ => .ok 100
    ChainGetMessage := fun _ => .ok exTarget
    StateSearchMsg := fun _ => .ok { tipSet := 500, height := 41, receipt := ⟨0, [], 42⟩ }
    ChainGetTipSet := fun k => if k = 500 then .ok exExecTs else .ok exIncTs
    ChainGetTipSetByHeight := fun h _ => if h = 41 then .ok exExecTs else .ok exIncTs
    ChainGetBlock := fun _ => .ok exBlockInc
    StateCirculatingSupply := fun _ => .ok 1000
    ChainGetParentMessages := fun _ => .ok exMsgs
    StateGetReceipt := fun _ _ => .ok (some ⟨0, [], 42⟩)
    Version := .ok "lotus-version"
    StateNetworkName := .ok "mainnet"
    ExecuteMessage := fun p => .ok (⟨0, [], 42⟩, p.preroot + 1)
    tracingAvailable := true
    tracedAccess := [7000, 7001]
    GetAccessedActors := fun _ => .ok [10, 20]
    GetMaskedStateTree := fun root retain => .ok (root + retain.length)
    WriteCAR := fun pre post => .ok [pre, post]
    WriteCARIncluding := fun acc pre post => .ok (acc ++ [pre, post])
    gzipCompress := fun bs => 31 :: bs
    serializeMsg := fun m => .ok [m.Cid]
    marshalJSON := fun v => .ok v.car
    filepathDir := fun _ => "out"
    mkdirAll := fun _ => .ok ()
    createFile := fun _ => .ok ()
    writeDest := .ok () }

/-- Happy-path options: no block hint, sender mode, traced retention, file
destination. -/
def opts0 : extractOpts :=
  { id := "vec-1", block := "", cid := "mcid", file := "out/v.json",
    retain := "accessed-cids", precursor := "sender" }

/-- C5: with a block hint the resolver fetches the hinted block for its
height `h`, resolves the execution tipset at height `h+1` walking from HEAD
(`EmptyTSK`), and the inclusion tipset at height `h` walking backward from
the execution tipset's key; without a hint it locates the message via
`StateSearchMsg` and returns that tipset as the execution tipset and its
parent as the inclusion tipset. -/
theorem resolver_hint_spec (env : Env) (mcid : Nat) (msg : Message) :
    (∀ (block : String) (bcid : Nat) (blk : BlockHeader) (execTs incTs : TipSet),
      block ≠ "" →
      env.ChainGetMessage mcid = .ok msg →
      env.decodeCid block = .ok bcid →
      env.ChainGetBlock bcid = .ok blk →
      env.ChainGetTipSetByHeight (blk.height + 1) EmptyTSK = .ok execTs →
      env.ChainGetTipSetByHeight blk.height execTs.key = .ok incTs →
      resolveFromChain env mcid block = .ok (msg, execTs, incTs))
    ∧ (∀ (lookup : MsgLookup) (execTs incTs : TipSet),
      env.ChainGetMessage mcid = .ok msg →
      env.StateSearchMsg mcid = .ok lookup →
      env.ChainGetTipSet lookup.tipSet = .ok execTs →
      env.ChainGetTipSet execTs.parents = .ok incTs →
      resolveFromChain env mcid "" = .ok (msg, execTs, incTs)) := by
  constructor
  · intro block bcid blk execTs incTs hb hmsg hdec hblk hexec hinc
    simp only [resolveFromChain, hmsg, if_neg hb, hdec, hblk, hexec, hinc]
  · intro lookup execTs incTs hmsg hsearch hts hprev
    simp [resolveFromChain, hmsg, hsearch, fetchThisAndPrevTipset, hts, hprev]

/-- C5 witness: both resolver paths on the concrete environment. -/
theorem resolver_hint_spec_witness :
    resolveFromChain env0 100 "blockhint" = .ok (exTarget, exExecTs, exIncTs)
    ∧ resolveFromChain env0 100 "" = .ok (exTarget, exExecTs, exIncTs) :=
  ⟨(resolver_hint_spec env0 100 exTarget).1 "blockhint" 100 exBlockInc exExecTs exIncTs
      (by decide) rfl rfl rfl rfl rfl,
    (resolver_hint_spec env0 100 exTarget).2 ⟨500, 41, ⟨0, [], 42⟩⟩ exExecTs exIncTs
      rfl rfl rfl rfl⟩

/-- C4: under the `accessed-actors` retention strategy, the retain list
passed to the masked-tree construction is always the independently computed
accessed-actor set with the reward, burnt-funds and init actors appended
unconditionally: the masked-tree call receives exactly
`actors ++ [rewardAddress, burntFundsActorAddr, initAddress]`, whatever
`actors` is, and both its failure and its success determine the branch's
result. -/
theorem masked_retain_list_spec (env : Env) (mcid : Nat) (msg : Message)
    (epoch circSupply basefee root : Nat) (actors : List Nat)
    (hacc : env.GetAccessedActors mcid = .ok actors) :
    (∀ e, env.GetMaskedStateTree root
        (actors ++ [rewardAddress, burntFundsActorAddr, initAddress]) =.error e →
      executeTarget env "accessed-actors" mcid msg epoch circSupply basefee root = .error e)
    ∧ (∀ preroot, env.GetMaskedStateTree root
        (actors ++ [rewardAddress, burntFundsActorAddr, initAddress]) = .ok preroot →
      executeTarget env "accessed-actors" mcid msg epoch circSupply basefee root =
        match env.ExecuteMessage ⟨preroot, epoch, msg, circSupply, basefee⟩ with
        | .error e => .error ("failed to execute message: " ++ e)
        | .ok (applyret, postroot) =>
          .ok (preroot, postroot, applyret, env.WriteCAR preroot postroot)) := by
  constructor
  · intro e hmask
    simp [executeTarget, hacc, hmask]
  · intro preroot hmask
    simp [executeTarget, hacc, hmask]

/-- C4 witness: on the concrete environment the masked tree is built from
the accessed actors [10, 20] plus the three protocol actors, and the branch
executes the target against the masked preroot. -/
theorem masked_retain_list_spec_witness :
    executeTarget env0 "accessed-actors" 100 exTarget 41 1000 3 7000 =
      .ok (7005, 7006, ⟨0, [], 42⟩, env0.WriteCAR 7005 7006) := by
  have h := (masked_retain_list_spec env0 100 exTarget 41 1000 3 7000 [10, 20] rfl).2 7005 rfl
  rw [h]
  rfl

theorem replay_ok_chain (env : Env) (epoch circSupply basefee : Nat) :
    ∀ (ps : List Message) (root out : Nat),
      replayPrecursors env epoch circSupply basefee ps root = Except.ok out →
      ∃ roots : List Nat, roots.length = ps.length + 1 ∧ roots.getD 0 0 = root ∧
        roots.getD ps.length 0 = out ∧
        ∀ i, i < ps.length →
          ∃ ret, env.ExecuteMessage
              ⟨roots.getD i 0, epoch, ps.getD i default, circSupply, basefee⟩ =
            Except.ok (ret, roots.getD (i + 1) 0)
  | [], root, out, h => by
    simp only [replayPrecursors, Except.ok.injEq] at h
    exact ⟨[root], by simp, by simp, by simp [h], by simp⟩
  | m :: rest, root, out, h => by
    simp only [replayPrecursors] at h
    cases hexec : env.ExecuteMessage ⟨root, epoch, m, circSupply, basefee⟩ with
    | error e => rw [hexec] at h; exact absurd h (by simp)
    | ok pr =>
      obtain ⟨ret, root'⟩ := pr
      rw [hexec] at h
      obtain ⟨roots, hlen, hhead, hlast, hstep⟩ :=
        replay_ok_chain env epoch circSupply basefee rest root' out h
      refine ⟨root :: roots, by simp [hlen], by simp, ?_, ?_⟩
      · exact hlast
      · intro i hi
        cases i with
        | zero =>
          refine ⟨ret, ?_⟩
          show env.ExecuteMessage ⟨root, epoch, m, circSupply, basefee⟩ =
            Except.ok (ret, roots.getD 0 0)
          rw [hhead]
          exact hexec
        | succ j =>
          have hj : j < rest.length := by simpa using hi
          obtain ⟨r, hr⟩ := hstep j hj
          exact ⟨r, hr⟩

/-- C6: precursor replay is strictly sequential.  (i) A successful replay of
`ps` from `root` yields a chain of roots `root = root₀ → root₁ → … → rootₙ`
in which each precursor executes against the running root and produces the
next; (ii) a failing precursor execution immediately aborts the replay with
a wrapped error; (iii) in the pipeline, the root produced by the replay is
exactly the root handed to the retention strategy (`executeTarget`) as the
target's pre-state. -/
theorem replay_sequential_spec (env : Env) :
    (∀ (epoch circSupply basefee : Nat) (ps : List Message) (root out : Nat),
      replayPrecursors env epoch circSupply basefee ps root = .ok out →
      ∃ roots : List Nat, roots.length = ps.length + 1 ∧ roots.getD 0 0 = root ∧
        roots.getD ps.length 0 = out ∧
        ∀ i, i < ps.length →
          ∃ ret, env.ExecuteMessage
              ⟨roots.getD i 0, epoch, ps.getD i default, circSupply, basefee⟩ =
            .ok (ret, roots.getD (i + 1) 0))
    ∧ (∀ (epoch circSupply basefee : Nat) (m : Message) (rest : List Message)
        (root : Nat) (e : String),
      env.ExecuteMessage ⟨root, epoch, m, circSupply, basefee⟩ = .error e →
      replayPrecursors env epoch circSupply basefee (m :: rest) root =
        .error ("failed to execute precursor message: " ++ e))
    ∧ (∀ (opts : extractOpts) (mcid : Nat) (msg : Message) (execTs incTs : TipSet)
        (circSupply : Nat) (msgs : List ApiMessage) (related : List Message) (rootN : Nat),
      env.decodeCid opts.cid = .ok mcid →
      resolveFromChain env mcid opts.block = .ok (msg, execTs, incTs) →
      env.StateCirculatingSupply incTs.key = .ok circSupply →
      env.ChainGetParentMessages execTs.blocks0.Cid = .ok msgs →
      findMsgAndPrecursors opts.precursor msg msgs = (related, true, none) →
      replayPrecursors env execTs.height circSupply incTs.blocks0.parentBaseFee
          related.dropLast incTs.parentState = .ok rootN →
      doExtractCore env opts =
        match executeTarget env opts.retain mcid msg execTs.height circSupply
            incTs.blocks0.parentBaseFee rootN with
        | .error e => .error e
        | .ok t =>
          afterTarget env opts mcid msg execTs incTs circSupply
            incTs.blocks0.parentBaseFee t) := by
  refine ⟨replay_ok_chain env, ?_, ?_⟩
  · intro epoch circSupply basefee m rest root e hexec
    simp [replayPrecursors, hexec]
  · intro opts mcid msg execTs incTs circSupply msgs related rootN
      hdec hres hcirc hmsgs hfind hreplay
    simp only [doExtractCore, hdec, hres, hcirc, hmsgs, hfind, if_pos, hreplay]

/-- C6 witness: on the concrete environment, replaying the two selected
precursors threads the root 7000 → 7001 → 7002; a failing engine aborts with
a wrapped error; and the pipeline hands root 7002 to the retention
strategy. -/
theorem replay_sequential_spec_witness :
    (∃ roots : List Nat, roots.length = 3 ∧ roots.getD 0 0 = 7000 ∧
      roots.getD 2 0 = 7002 ∧
      ∀ i, i < 2 →
        ∃ ret, env0.ExecuteMessage
            ⟨roots.getD i 0, 41, [exM0, exM1].getD i default, 1000, 3⟩ =
          .ok (ret, roots.getD (i + 1) 0))
    ∧ replayPrecursors { env0 with ExecuteMessage := fun _ => .error "boom" } 41 1000 3
        [exM0] 7000 = .error "failed to execute precursor message: boom"
    ∧ doExtractCore env0 opts0 =
      match executeTarget env0 opts0.retain 100 exTarget 41 1000 3 7002 with
      | .error e => .error e
      | .ok t => afterTarget env0 opts0 100 exTarget exExecTs exIncTs 1000 3 t :=
  ⟨(replay_sequential_spec env0).1 41 1000 3 [exM0, exM1] 7000 7002 rfl,
    (replay_sequential_spec { env0 with ExecuteMessage := fun _ => .error "boom" }).2.1
      41 1000 3 exM0 [] 7000 "boom" rfl,
    (replay_sequential_spec env0).2.2 opts0 100 exTarget exExecTs exIncTs 1000 exMsgs
      [exM0, exM1, exTarget] 7002 rfl rfl rfl rfl (by decide) rfl⟩

theorem assembleVector_receipts (env : Env) (opts : extractOpts) (msg : Message)
    (execTs incTs : TipSet) (circSupply basefee : Nat)
    (t : Nat × Nat × ApplyRet × Except String (List Nat)) (v : TestVector)
    (hv : assembleVector env opts msg execTs incTs circSupply basefee t = .ok v) :
    v.post.receipts = [⟨t.2.2.1.exitCode, t.2.2.1.ret, t.2.2.1.gasUsed⟩] := by
  obtain ⟨preroot, postroot, applyret, carW⟩ := t
  simp only [assembleVector] at hv
  cases hs : env.serializeMsg msg with
  | error e => rw [hs] at hv; exact absurd hv (by simp)
  | ok msgBytes =>
    rw [hs] at hv
    cases hc : carW with
    | error e => rw [hc] at hv; exact absurd hv (by simp)
    | ok carBytes =>
      rw [hc] at hv
      cases hver : env.Version with
      | error e => rw [hver] at hv; exact absurd hv (by simp)
      | ok version =>
        rw [hver] at hv
        cases hn : env.StateNetworkName with
        | error e => rw [hn] at hv; exact absurd hv (by simp)
        | ok ntwkName =>
          rw [hn] at hv
          simp only [Except.ok.injEq] at hv
          rw [← hv]

/-- C2: once the pipeline has reached the verification stage, (i) if the
chain returns an authoritative receipt that differs from the locally computed
result in any of exit code, return value or gas used, the run aborts with an
error and the destination receives no output at all; (ii) if the chain
returns a nil receipt (with no lookup error), the comparison is skipped, the
pipeline proceeds directly to assembly, and any vector it produces carries
the locally computed receipt in its postconditions. -/
theorem verification_gate_spec (env : Env) (opts : extractOpts) (mcid : Nat)
    (msg : Message) (execTs incTs : TipSet) (circSupply : Nat)
    (msgs : List ApiMessage) (related : List Message) (rootN : Nat)
    (preroot postroot : Nat) (applyret : ApplyRet) (carW : Except String (List Nat))
    (hdec : env.decodeCid opts.cid = .ok mcid)
    (hres : resolveFromChain env mcid opts.block = .ok (msg, execTs, incTs))
    (hcirc : env.StateCirculatingSupply incTs.key = .ok circSupply)
    (hmsgs : env.ChainGetParentMessages execTs.blocks0.Cid = .ok msgs)
    (hfind : findMsgAndPrecursors opts.precursor msg msgs = (related, true, none))
    (hreplay : replayPrecursors env execTs.height circSupply incTs.blocks0.parentBaseFee
      related.dropLast incTs.parentState = .ok rootN)
    (htgt : executeTarget env opts.retain mcid msg execTs.height circSupply
      incTs.blocks0.parentBaseFee rootN = .ok (preroot, postroot, applyret, carW)) :
    (∀ rec : MessageReceipt, env.StateGetReceipt mcid execTs.key = .ok (some rec) →
      AssertMsgResult ⟨rec.exitCode, rec.ret, rec.gasUsed⟩ applyret = false →
      doExtract env opts = (.error "vector generation aborted", []))
    ∧ (env.StateGetReceipt mcid execTs.key = .ok none →
      doExtractCore env opts =
        assembleVector env opts msg execTs incTs circSupply incTs.blocks0.parentBaseFee
          (preroot, postroot, applyret, carW)
      ∧ ∀ v : TestVector, doExtractCore env opts = .ok v →
        v.post.receipts = [⟨applyret.exitCode, applyret.ret, applyret.gasUsed⟩]) := by
  have hcore : doExtractCore env opts =
      afterTarget env opts mcid msg execTs incTs circSupply incTs.blocks0.parentBaseFee
        (preroot, postroot, applyret, carW) := by
    simp only [doExtractCore, hdec, hres, hcirc, hmsgs, hfind, if_pos, hreplay, htgt]
  constructor
  · intro rec hrec hmis
    have : doExtractCore env opts = .error "vector generation aborted" := by
      rw [hcore]
      simp only [afterTarget, hrec, hmis]
      rfl
    simp [doExtract, this]
  · intro hrec
    have hass : doExtractCore env opts =
        assembleVector env opts msg execTs incTs circSupply incTs.blocks0.parentBaseFee
          (preroot, postroot, applyret, carW) := by
      rw [hcore]
      simp only [afterTarget, hrec]
    refine ⟨hass, ?_⟩
    intro v hv
    rw [hass] at hv
    exact assembleVector_receipts env opts msg execTs incTs circSupply
      incTs.blocks0.parentBaseFee (preroot, postroot, applyret, carW) v hv

/-- C2 witness: a mismatching authoritative receipt (gas 43 vs local 42)
aborts the concrete run with no destination events; a nil receipt proceeds
to assembly and the produced vector carries the locally computed receipt. -/
theorem verification_gate_spec_witness :
    doExtract { env0 with StateGetReceipt := fun _ _ => .ok (some ⟨0, [], 43⟩) } opts0 =
      (.error "vector generation aborted", [])
    ∧ ∃ v : TestVector,
      doExtractCore { env0 with StateGetReceipt := fun _ _ => .ok none } opts0 = .ok v
      ∧ v.post.receipts = [⟨0, [], 42⟩] := by
  constructor
  · exact (verification_gate_spec { env0 with StateGetReceipt := fun _ _ => .ok (some ⟨0, [], 43⟩) }
      opts0 100 exTarget exExecTs exIncTs 1000 exMsgs [exM0, exM1, exTarget] 7002
      7002 7003 ⟨0, [], 42⟩ (.ok [7000, 7001, 7002, 7003])
      rfl rfl rfl rfl (by decide) rfl rfl).1 ⟨0, [], 43⟩ rfl (by decide)
  · have h := (verification_gate_spec { env0 with StateGetReceipt := fun _ _ => .ok none }
      opts0 100 exTarget exExecTs exIncTs 1000 exMsgs [exM0, exM1, exTarget] 7002
      7002 7003 ⟨0, [], 42⟩ (.ok [7000, 7001, 7002, 7003])
      rfl rfl rfl rfl (by decide) rfl rfl).2 rfl
    refine ⟨_, h.1.trans rfl, ?_⟩
    exact h.2 _ h.1

theorem writeOutput_write_complete (env : Env) (opts : extractOpts) (v : TestVector)
    (bs : List Nat) (hmem : DestEvent.write bs ∈ (writeOutput env opts v).2) :
    env.marshalJSON v = .ok bs := by
  unfold writeOutput at hmem
  by_cases hf : opts.file = ""
  · rw [if_pos hf] at hmem
    cases hm : env.marshalJSON v with
    | error e => rw [hm] at hmem; simp at hmem
    | ok bs' =>
      rw [hm] at hmem
      cases hw : env.writeDest with
      | error e2 =>
        rw [hw] at hmem
        have hb : bs = bs' := by simpa using hmem
        rw [hb]
      | ok u =>
        rw [hw] at hmem
        have hb : bs = bs' := by simpa using hmem
        rw [hb]
  · rw [if_neg hf] at hmem
    cases hmk : env.mkdirAll (env.filepathDir opts.file) with
    | error e => rw [hmk] at hmem; simp at hmem
    | ok u =>
      rw [hmk] at hmem
      cases hcr : env.createFile opts.file with
      | error e => rw [hcr] at hmem; simp at hmem
      | ok u2 =>
        rw [hcr] at hmem
        cases hm : env.marshalJSON v with
        | error e => rw [hm] at hmem; simp at hmem
        | ok bs' =>
          rw [hm] at hmem
          cases hw : env.writeDest with
          | error e2 =>
            rw [hw] at hmem
            have hb : bs = bs' := by simpa using hmem
            rw [hb]
          | ok u3 =>
            rw [hw] at hmem
            have hb : bs = bs' := by simpa using hmem
            rw [hb]

/-- C3: the destination never receives a partial or malformed document:
(i) every byte string written to the destination is the complete JSON
marshalling of the fully assembled vector, so a write happens only after
every prior stage (including marshalling) has succeeded; (ii) a failure
anywhere in the core pipeline reaches the destination with no events at
all. -/
theorem no_partial_output_spec (env : Env) (opts : extractOpts) :
    (∀ bs : List Nat, DestEvent.write bs ∈ (doExtract env opts).2 →
      ∃ v : TestVector, doExtractCore env opts = .ok v ∧ env.marshalJSON v = .ok bs)
    ∧ (∀ e : String, doExtractCore env opts = .error e → (doExtract env opts).2 = []) := by
  cases hcore : doExtractCore env opts with
  | error e =>
    constructor
    · intro bs hmem
      simp [doExtract, hcore] at hmem
    · intro e2 _
      simp [doExtract, hcore]
  | ok v =>
    constructor
    · intro bs hmem
      have hout : (doExtract env opts).2 = (writeOutput env opts v).2 := by
        simp [doExtract, hcore]
      rw [hout] at hmem
      exact ⟨v, rfl, writeOutput_write_complete env opts v bs hmem⟩
    · intro e2 he
      exact absurd he (by simp)

/-- C3 witness: the single write event of the concrete happy-path run carries
the complete marshalled document of the assembled vector. -/
theorem no_partial_output_spec_witness :
    ∃ v : TestVector, doExtractCore env0 opts0 = .ok v
      ∧ env0.marshalJSON v = .ok [31, 7000, 7001, 7002, 7003] :=
  (no_partial_output_spec env0 opts0).1 [31, 7000, 7001, 7002, 7003] (by decide)

/-- C7: (i) for every canonical message list in which the target's identity
never appears, the selector returns `found = false` with an accumulated list
no longer than the input; (ii) the caller treats `found = false` as fatal:
the extraction aborts with an error and the destination receives nothing. -/
theorem selector_not_found_fatal_spec :
    (∀ (mode : String) (target : Message) (msgs : List ApiMessage),
      (∀ a ∈ msgs, a.Cid ≠ target.Cid) →
      ∃ rel, findMsgAndPrecursors mode target msgs = (rel, false, none) ∧
        rel.length ≤ msgs.length)
    ∧ (∀ (env : Env) (opts : extractOpts) (mcid : Nat) (msg : Message)
        (execTs incTs : TipSet) (circSupply : Nat) (msgs : List ApiMessage),
      env.decodeCid opts.cid = .ok mcid →
      resolveFromChain env mcid opts.block = .ok (msg, execTs, incTs) →
      env.StateCirculatingSupply incTs.key = .ok circSupply →
      env.ChainGetParentMessages execTs.blocks0.Cid = .ok msgs →
      (∀ a ∈ msgs, a.Cid ≠ msg.Cid) →
      ∃ e, doExtract env opts = (.error e, [])) := by
  constructor
  · intro mode target msgs habs
    obtain ⟨rel, hrel, hlen⟩ := findLoop_not_found mode target msgs [] habs
    exact ⟨rel, hrel, by simpa using hlen⟩
  · intro env opts mcid msg execTs incTs circSupply msgs hdec hres hcirc hmsgs habs
    obtain ⟨rel, hrel, _⟩ := findLoop_not_found opts.precursor msg msgs [] habs
    have hrel' : findMsgAndPrecursors opts.precursor msg msgs = (rel, false, none) := hrel
    refine ⟨"message not found; precursors found: " ++ toString rel.length, ?_⟩
    have hcore : doExtractCore env opts =
        .error ("message not found; precursors found: " ++ toString rel.length) := by
      simp only [doExtractCore, hdec, hres, hcirc, hmsgs, hrel']
      simp
    simp [doExtract, hcore]

/-- C7 witness: a canonical list missing the target's CID yields
`found = false` with a short accumulator, and the concrete extraction run on
such a chain aborts with an error and an empty destination log. -/
theorem selector_not_found_fatal_spec_witness :
    (∃ rel, findMsgAndPrecursors PrecursorSelectSender exTarget [⟨101, exM0⟩, ⟨102, exM1⟩] =
        (rel, false, none) ∧ rel.length ≤ 2)
    ∧ ∃ e, doExtract
        { env0 with ChainGetParentMessages := fun _ => .ok [⟨101, exM0⟩, ⟨102, exM1⟩] }
        opts0 = (.error e, []) :=
  ⟨selector_not_found_fatal_spec.1 PrecursorSelectSender exTarget
      [⟨101, exM0⟩, ⟨102, exM1⟩] (by decide),
    selector_not_found_fatal_spec.2
      { env0 with ChainGetParentMessages := fun _ => .ok [⟨101, exM0⟩, ⟨102, exM1⟩] }
      opts0 100 exTarget exExecTs exIncTs 1000 [⟨101, exM0⟩, ⟨102, exM1⟩]
      rfl rfl rfl rfl (by decide)⟩

/-- C8: the extraction is deterministic.  All chain-API responses, engine
results, store contents and library behaviour are fields of the environment,
and the pipeline is a pure function of the environment and the options, so
two runs with identical chain state and identical inputs produce identical
results — in particular byte-identical serialized vector documents at the
destination. -/
theorem extraction_deterministic_spec (env1 env2 : Env) (opts1 opts2 : extractOpts)
    (henv : env1 = env2) (hopts : opts1 = opts2) :
    doExtract env1 opts1 = doExtract env2 opts2 := by
  rw [henv, hopts]

/-- C8 witness: two runs on the concrete environment coincide. -/
theorem extraction_deterministic_spec_witness :
    doExtract env0 opts0 = doExtract env0 opts0 :=
  extraction_deterministic_spec env0 env0 opts0 opts0 rfl rfl
